import Mathlib

/-!
Shallow embedding of the Circuit Walker sneakers program
(src/CircuitPython_Circuit_Walker/main.py) and proofs about it.

Python floats are modelled as rationals (ℚ); Python's `int(...)` truncation
toward zero is `pyInt`; Python list indexing (including negative indices and
the IndexError case) is `pyIndex`, returning `none` where Python would raise.
The hardware pixel strip, accelerometer and clock are external collaborators:
the main loop is modelled as a state-transition function over the loop-local
variables (`last`, `pixels_animate`), driven by a list of observed inputs
(clock reading and tap flag per iteration).
-/

namespace CircuitWalker

/-- Configuration constant TAP_THRESHOLD_G = 1.5 from main.py. -/
def TAP_THRESHOLD_G : ℚ := 3/2

/-- Configuration constant TAP_TIME_LIMIT_S = 0.25 from main.py. -/
def TAP_TIME_LIMIT_S : ℚ := 1/4

/-- Configuration constant STEP_FLASH_S = 0.5 from main.py. -/
def STEP_FLASH_S : ℚ := 1/2

/-- Configuration constant ANIMATION_FREQ_HZ = 1.0 from main.py. -/
def ANIMATION_FREQ_HZ : ℚ := 1

/-- Number of NeoPixels: `neopixel.NeoPixel(board.NEOPIXEL, 10)` in main.py. -/
def numPixels : ℕ := 10

/-- The gamma correction lookup table GAMMA8 from main.py (256 byte entries). -/
def GAMMA8 : List ℕ := [
    0,  0,  0,  0,  0,  0,  0,  0,  0,  0,  0,  0,  0,  0,  0,  0,
    0,  0,  0,  0,  0,  0,  0,  0,  0,  0,  0,  0,  1,  1,  1,  1,
    1,  1,  1,  1,  1,  1,  1,  1,  1,  2,  2,  2,  2,  2,  2,  2,
    2,  3,  3,  3,  3,  3,  3,  3,  4,  4,  4,  4,  4,  5,  5,  5,
    5,  6,  6,  6,  6,  7,  7,  7,  7,  8,  8,  8,  9,  9,  9, 10,
   10, 10, 11, 11, 11, 12, 12, 13, 13, 13, 14, 14, 15, 15, 16, 16,
   17, 17, 18, 18, 19, 19, 20, 20, 21, 21, 22, 22, 23, 24, 24, 25,
   25, 26, 27, 27, 28, 29, 29, 30, 31, 32, 32, 33, 34, 35, 35, 36,
   37, 38, 39, 39, 40, 41, 42, 43, 44, 45, 46, 47, 48, 49, 50, 50,
   51, 52, 54, 55, 56, 57, 58, 59, 60, 61, 62, 63, 64, 66, 67, 68,
   69, 70, 72, 73, 74, 75, 77, 78, 79, 81, 82, 83, 85, 86, 87, 89,
   90, 92, 93, 95, 96, 98, 99,101,102,104,105,107,109,110,112,114,
  115,117,119,120,122,124,126,127,129,131,133,135,137,138,140,142,
  144,146,148,150,152,154,156,158,160,162,164,167,169,171,173,175,
  177,180,182,184,186,189,191,193,196,198,200,203,205,208,210,213,
  215,218,220,223,225,228,231,233,236,239,241,244,247,249,252,255]

/-- Python `int(x)` on a float: truncation toward zero. -/
def pyInt (x : ℚ) : ℤ := if x < 0 then ⌈x⌉ else ⌊x⌋

/-- Python list indexing `l[i]`: nonnegative indices from the front, negative
indices count from the back, out-of-range raises (modelled as `none`). -/
def pyIndex (l : List ℕ) (i : ℤ) : Option ℕ :=
  if 0 ≤ i then l[i.toNat]?
  else if 0 ≤ i + l.length then l[(i + (l.length : ℤ)).toNat]?
  else none

/-- The helper `lerp(x, x0, x1, y0, y1)` from main.py. -/
def lerp (x x0 x1 y0 y1 : ℚ) : ℚ :=
  y0 + (x - x0) * ((y1 - y0) / (x1 - x0))

/-- The linear (pre-gamma) RGB channels computed inside `HSV_to_RGB` in
main.py: the `s == 0` grayscale branch, otherwise the hexagonal sector
decomposition with `i = int(math.floor(h / 60))`, `f` the fractional part,
and the 6-way sector selection (the final `else` absorbing every other
sector index). -/
def hsvChannels (h s v : ℚ) : ℚ × ℚ × ℚ :=
  if s = 0 then (v, v, v)
  else
    let h6 := h / 60
    let i : ℤ := ⌊h6⌋
    let f := h6 - (i : ℚ)
    let p := v * (1 - s)
    let q := v * (1 - s * f)
    let t := v * (1 - s * (1 - f))
    if i = 0 then (v, t, p)
    else if i = 1 then (q, v, p)
    else if i = 2 then (p, v, t)
    else if i = 3 then (p, q, v)
    else if i = 4 then (t, p, v)
    else (v, p, q)

/-- `HSV_to_RGB(h, s, v)` from main.py: the linear channels, each scaled by
255, truncated with `int(...)`, and looked up in GAMMA8. `none` models a
Python IndexError in a gamma lookup (never reached for in-range inputs). -/
def HSV_to_RGB (h s v : ℚ) : Option (ℕ × ℕ × ℕ) :=
  let c := hsvChannels h s v
  match pyIndex GAMMA8 (pyInt (255 * c.1)),
        pyIndex GAMMA8 (pyInt (255 * c.2.1)),
        pyIndex GAMMA8 (pyInt (255 * c.2.2)) with
  | some r, some g, some b => some (r, g, b)
  | _, _, _ => none

/-- The two fatal calibration failures of main.py (each triggers
`error_sos`, a non-returning red S.O.S. blink loop). -/
inductive CalibrationError where
  | ThresholdOutOfRange
  | TimeLimitOutOfRange
deriving DecidableEq

/-- `tap_threshold = int(math.ceil(g / (4.0 / 128.0)))` from main.py,
generalized over the target threshold in gravities (the divisor is fixed by
the configured ±4G range). -/
def tap_threshold (g : ℚ) : ℤ := ⌈g / (4 / 128)⌉

/-- `time_limit = int(math.ceil(s / (1.0 / 50.0)))` from main.py,
generalized over the target window in seconds (the divisor is fixed by the
configured 50 Hz data rate). -/
def time_limit (s : ℚ) : ℤ := ⌈s / (1 / 50)⌉

/-- The calibration sequence of main.py lines 201-209: derive the tap
threshold code, abort into `error_sos` if it exceeds 127, then derive the
time limit code, abort if it exceeds 127, otherwise both codes are used.
`Except.error` models the non-returning `error_sos` call. -/
def calibrate (g s : ℚ) : Except CalibrationError (ℤ × ℤ) :=
  let tc := tap_threshold g
  if tc > 127 then .error .ThresholdOutOfRange
  else
    let lc := time_limit s
    if lc > 127 then .error .TimeLimitOutOfRange
    else .ok (tc, lc)

/-- The loop-local mutable variables of the main loop in main.py:
`last` (previous monotonic clock reading) and `pixels_animate` (remaining
animation time in seconds). -/
structure LoopState where
  last : ℚ
  pixels_animate : ℚ
deriving DecidableEq

/-- Which rendering path one loop iteration takes before `pixels.write()`:
either the distinct all-off fast path `pixels.fill((0,0,0))`, or a frame of
`animate_rainbow(pixels, current, remaining)` driven through the HSV
engine (recorded with the arguments passed). -/
inductive FramePath where
  | allOff
  | hsvRainbow (current remaining : ℚ)
deriving DecidableEq

/-- One iteration of the main loop of main.py (lines 218-245), as a function
of the fresh clock reading `current` and the tap flag `single` read from
`lis3dh.read_click()`: compute `delta`, decrement `pixels_animate` floored
at 0, render (rainbow if time remains, else fill black), then on a single
tap reset `pixels_animate` to STEP_FLASH_S. Returns the new state and the
frame path written that iteration. -/
def loopStep (st : LoopState) (current : ℚ) (single : Bool) : LoopState × FramePath :=
  let delta := current - st.last
  let pa := max 0 (st.pixels_animate - delta)
  let frame := if pa > 0 then FramePath.hsvRainbow current (pa / STEP_FLASH_S)
               else FramePath.allOff
  let pa2 := if single then STEP_FLASH_S else pa
  (⟨current, pa2⟩, frame)

/-- Run the main loop over a finite observation list of (clock reading, tap
flag) pairs, collecting the frame path written each iteration. -/
def runLoop (st : LoopState) : List (ℚ × Bool) → LoopState × List FramePath
  | [] => (st, [])
  | (c, single) :: rest =>
    let step := loopStep st c single
    let res := runLoop step.1 rest
    (res.1, step.2 :: res.2)

/-- The clock `time.monotonic()` is non-decreasing: each reading is at least
the previous one (starting from the `last` value held in the state). -/
def ClockMono (l : ℚ) (ticks : List (ℚ × Bool)) : Prop :=
  List.Chain (· ≤ ·) l (ticks.map Prod.fst)

/-- The final clock reading after a list of iterations (the held `last`
value if no iteration happens). -/
def endClock : ℚ → List (ℚ × Bool) → ℚ
  | l, [] => l
  | _, (c, _) :: rest => endClock c rest

/-- The pixel contents written by the all-off path:
`pixels.fill((0,0,0))` on the 10-pixel strip. -/
def allOffFrame : List (ℕ × ℕ × ℕ) := List.replicate numPixels (0, 0, 0)

lemma runLoop_nil (st : LoopState) : runLoop st [] = (st, []) := rfl

lemma runLoop_cons (st : LoopState) (c : ℚ) (b : Bool) (rest : List (ℚ × Bool)) :
    runLoop st ((c, b) :: rest) =
      ((runLoop (loopStep st c b).1 rest).1,
        (loopStep st c b).2 :: (runLoop (loopStep st c b).1 rest).2) := rfl

lemma loopStep_last (st : LoopState) (c : ℚ) (b : Bool) :
    (loopStep st c b).1.last = c := rfl

lemma loopStep_pa (st : LoopState) (c : ℚ) (b : Bool) :
    (loopStep st c b).1.pixels_animate =
      if b then STEP_FLASH_S else max 0 (st.pixels_animate - (c - st.last)) := by
  cases b <;> rfl

lemma loopStep_frame (st : LoopState) (c : ℚ) (b : Bool) :
    (loopStep st c b).2 =
      if max 0 (st.pixels_animate - (c - st.last)) > 0 then
        FramePath.hsvRainbow c (max 0 (st.pixels_animate - (c - st.last)) / STEP_FLASH_S)
      else FramePath.allOff := rfl

lemma clockMono_cons {l c : ℚ} {b : Bool} {rest : List (ℚ × Bool)} :
    ClockMono l ((c, b) :: rest) ↔ l ≤ c ∧ ClockMono c rest := by
  simp [ClockMono, List.chain_cons]

lemma le_endClock : ∀ (ticks : List (ℚ × Bool)) (l : ℚ),
    ClockMono l ticks → l ≤ endClock l ticks := by
  intro ticks
  induction ticks with
  | nil => intro l _; exact le_refl l
  | cons hd rest ih =>
    obtain ⟨c, b⟩ := hd
    intro l h
    rw [clockMono_cons] at h
    exact le_trans h.1 (ih c h.2)

lemma max_zero_sub_collapse (x d : ℚ) (hd : 0 ≤ d) :
    max 0 (max 0 x - d) = max 0 (x - d) := by
  rcases le_total x 0 with h | h
  · rw [max_eq_left h, zero_sub, max_eq_left (by linarith), max_eq_left (by linarith)]
  · rw [max_eq_right h]

lemma runLoop_final_last : ∀ (ticks : List (ℚ × Bool)) (st : LoopState),
    (runLoop st ticks).1.last = endClock st.last ticks := by
  intro ticks
  induction ticks with
  | nil => intro st; rfl
  | cons hd rest ih =>
    obtain ⟨c, b⟩ := hd
    intro st
    rw [runLoop_cons, endClock]
    have := ih (loopStep st c b).1
    rwa [loopStep_last] at this

lemma runLoop_decay : ∀ (ticks : List (ℚ × Bool)) (st : LoopState),
    0 ≤ st.pixels_animate → ClockMono st.last ticks →
    (∀ t ∈ ticks, t.2 = false) →
    (runLoop st ticks).1.pixels_animate =
      max 0 (st.pixels_animate - (endClock st.last ticks - st.last)) := by
  intro ticks
  induction ticks with
  | nil =>
    intro st h0 _ _
    rw [runLoop_nil, endClock, sub_self, sub_zero, max_eq_right h0]
  | cons hd rest ih =>
    obtain ⟨c, b⟩ := hd
    intro st h0 hmono hnotrig
    have hb : b = false := hnotrig (c, b) (List.mem_cons_self _ _)
    subst hb
    rw [clockMono_cons] at hmono
    rw [runLoop_cons, endClock]
    have hlast : (loopStep st c false).1.last = c := loopStep_last st c false
    have hpa : (loopStep st c false).1.pixels_animate =
        max 0 (st.pixels_animate - (c - st.last)) := by
      rw [loopStep_pa]; rfl
    have hmono' : ClockMono (loopStep st c false).1.last rest := by
      rw [hlast]; exact hmono.2
    have h0' : 0 ≤ (loopStep st c false).1.pixels_animate := by
      rw [hpa]; exact le_max_left _ _
    have hrec := ih (loopStep st c false).1 h0' hmono'
      (fun t ht => hnotrig t (List.mem_cons_of_mem _ ht))
    rw [hrec, hpa, hlast]
    have hce : c ≤ endClock c rest := le_endClock rest c hmono.2
    rw [max_zero_sub_collapse _ _ (by linarith)]
    congr 1
    ring

lemma runLoop_bounds : ∀ (ticks : List (ℚ × Bool)) (st : LoopState),
    0 ≤ st.pixels_animate → st.pixels_animate ≤ STEP_FLASH_S →
    ClockMono st.last ticks →
    0 ≤ (runLoop st ticks).1.pixels_animate ∧
      (runLoop st ticks).1.pixels_animate ≤ STEP_FLASH_S := by
  intro ticks
  induction ticks with
  | nil => intro st h0 h1 _; exact ⟨h0, h1⟩
  | cons hd rest ih =>
    obtain ⟨c, b⟩ := hd
    intro st h0 h1 hmono
    rw [clockMono_cons] at hmono
    rw [runLoop_cons]
    apply ih
    · rw [loopStep_pa]
      cases b
      · simp only [Bool.false_eq_true, if_false]
        exact le_max_left _ _
      · simp only [if_true]
        norm_num [STEP_FLASH_S]
    · rw [loopStep_pa]
      cases b
      · simp only [Bool.false_eq_true, if_false]
        apply max_le
        · norm_num [STEP_FLASH_S]
        · have := hmono.1
          linarith
      · simp only [if_true]
        exact le_refl _
    · rw [loopStep_last]
      exact hmono.2

lemma runLoop_lastFrame : ∀ (ticks : List (ℚ × Bool)) (st : LoopState),
    ticks ≠ [] → (∀ t ∈ ticks, t.2 = false) →
    (runLoop st ticks).2.getLast? =
      some (if (runLoop st ticks).1.pixels_animate > 0 then
        FramePath.hsvRainbow (runLoop st ticks).1.last
          ((runLoop st ticks).1.pixels_animate / STEP_FLASH_S)
      else FramePath.allOff) := by
  intro ticks
  induction ticks with
  | nil => intro st hne _; exact absurd rfl hne
  | cons hd rest ih =>
    obtain ⟨c, b⟩ := hd
    intro st _ hnotrig
    have hb : b = false := hnotrig (c, b) (List.mem_cons_self _ _)
    subst hb
    cases rest with
    | nil =>
      simp only [runLoop_cons, runLoop_nil]
      show some _ = some _
      rw [loopStep_frame, loopStep_pa, loopStep_last]
      rfl
    | cons hd2 rest2 =>
      obtain ⟨c2, b2⟩ := hd2
      have hrec := ih (loopStep st c false).1 (List.cons_ne_nil _ _)
        (fun t ht => hnotrig t (List.mem_cons_of_mem _ ht))
      simp only [runLoop_cons] at hrec ⊢
      rw [List.getLast?_cons_cons]
      exact hrec

/-- Claim C1 (decay law): starting an iteration sequence with
`pixels_animate = STEP_FLASH_S`, if the monotonic clock advances by at
least STEP_FLASH_S in total and no tap fires, then afterwards
`pixels_animate = 0` and the frame written on the final iteration is the
distinct all-off path (`pixels.fill((0,0,0))`, every pixel (0,0,0)), not a
frame through the HSV engine. -/
theorem decay_to_all_off (st : LoopState) (ticks : List (ℚ × Bool))
    (hstart : st.pixels_animate = STEP_FLASH_S)
    (hmono : ClockMono st.last ticks)
    (hnotrig : ∀ t ∈ ticks, t.2 = false)
    (hne : ticks ≠ [])
    (helapsed : STEP_FLASH_S ≤ endClock st.last ticks - st.last) :
    (runLoop st ticks).1.pixels_animate = 0 ∧
    (runLoop st ticks).2.getLast? = some FramePath.allOff ∧
    ∀ p ∈ allOffFrame, p = (0, 0, 0) := by
  have h0 : 0 ≤ st.pixels_animate := by
    rw [hstart]; norm_num [STEP_FLASH_S]
  have hfin : (runLoop st ticks).1.pixels_animate = 0 := by
    rw [runLoop_decay ticks st h0 hmono hnotrig, hstart]
    exact max_eq_left (by linarith)
  refine ⟨hfin, ?_, ?_⟩
  · rw [runLoop_lastFrame ticks st hne hnotrig, hfin]
    norm_num
  · intro p hp
    exact List.eq_of_mem_replicate hp

/-- Witness for C1 at a concrete run: two untriggered iterations of total
elapsed 1/2 s from a full flash window. -/
theorem decay_to_all_off_witness :
    (runLoop ⟨0, STEP_FLASH_S⟩ [(1/4, false), (1/2, false)]).1.pixels_animate = 0 ∧
    (runLoop ⟨0, STEP_FLASH_S⟩ [(1/4, false), (1/2, false)]).2.getLast? =
      some FramePath.allOff ∧
    ∀ p ∈ allOffFrame, p = (0, 0, 0) :=
  decay_to_all_off ⟨0, STEP_FLASH_S⟩ [(1/4, false), (1/2, false)] rfl
    (by constructor
        · norm_num
        · constructor
          · norm_num
          · exact List.Chain.nil)
    (by intro t ht; fin_cases ht <;> rfl)
    (by simp)
    (by show STEP_FLASH_S ≤ endClock (1/4) [(1/2, false)] - 0
        show STEP_FLASH_S ≤ endClock (1/2) [] - 0
        norm_num [STEP_FLASH_S, endClock])

/-- Claim C2 (state invariant): from the startup values (`pixels_animate`
begins at 0) and a monotonic clock, after any number of loop iterations
`pixels_animate` lies in [0, STEP_FLASH_S]. -/
theorem pixels_animate_in_range (t0 : ℚ) (ticks : List (ℚ × Bool))
    (hmono : ClockMono t0 ticks) :
    0 ≤ (runLoop ⟨t0, 0⟩ ticks).1.pixels_animate ∧
      (runLoop ⟨t0, 0⟩ ticks).1.pixels_animate ≤ STEP_FLASH_S :=
  runLoop_bounds ticks ⟨t0, 0⟩ (le_refl 0) (by norm_num [STEP_FLASH_S]) hmono

/-- Witness for C2 at a concrete run with a trigger in the middle. -/
theorem pixels_animate_in_range_witness :
    0 ≤ (runLoop ⟨0, 0⟩ [(1/10, true), (3/10, false)]).1.pixels_animate ∧
      (runLoop ⟨0, 0⟩ [(1/10, true), (3/10, false)]).1.pixels_animate ≤ STEP_FLASH_S :=
  pixels_animate_in_range 0 [(1/10, true), (3/10, false)]
    (by constructor
        · norm_num
        · constructor
          · norm_num
          · exact List.Chain.nil)

/-- Claim C3 (trigger restart law): whatever the prior remaining time (in
particular any positive remaining time), an iteration that observes a
single tap leaves `pixels_animate` at exactly STEP_FLASH_S — the reset is
absolute, never additive (last-trigger-wins). -/
theorem trigger_resets_to_flash (st : LoopState) (c : ℚ)
    (hrem : st.pixels_animate > 0) :
    (loopStep st c true).1.pixels_animate = STEP_FLASH_S := by
  rw [loopStep_pa]
  rfl

/-- Witness for C3: a trigger while 1/4 s of animation remains resets the
remaining time to STEP_FLASH_S, not to 1/4 + STEP_FLASH_S. -/
theorem trigger_resets_to_flash_witness :
    (LoopState.mk 0 (1/4)).pixels_animate > 0 ∧
    (loopStep ⟨0, 1/4⟩ 1 true).1.pixels_animate = STEP_FLASH_S :=
  ⟨by norm_num, trigger_resets_to_flash ⟨0, 1/4⟩ 1 (by norm_num)⟩

set_option maxRecDepth 4000 in
lemma GAMMA8_length : GAMMA8.length = 256 := rfl

set_option maxRecDepth 100000 in
lemma GAMMA8_le_255 : ∀ x ∈ GAMMA8, x ≤ 255 := by decide

lemma pyIndex_GAMMA8_some {i : ℤ} (h0 : 0 ≤ i) (h1 : i ≤ 255) :
    ∃ g, pyIndex GAMMA8 i = some g ∧ g ≤ 255 := by
  have hlt : i.toNat < GAMMA8.length := by rw [GAMMA8_length]; omega
  refine ⟨GAMMA8[i.toNat], ?_, ?_⟩
  · unfold pyIndex
    rw [if_pos h0]
    exact List.getElem?_eq_getElem hlt
  · exact GAMMA8_le_255 _ (List.getElem_mem hlt)

lemma pyInt_of_nonneg {x : ℚ} (h : 0 ≤ x) : pyInt x = ⌊x⌋ := by
  unfold pyInt
  rw [if_neg (not_lt.mpr h)]

lemma pyInt_scale_unit {c : ℚ} (h0 : 0 ≤ c) (h1 : c ≤ 1) :
    0 ≤ pyInt (255 * c) ∧ pyInt (255 * c) ≤ 255 := by
  have hx : (0:ℚ) ≤ 255 * c := by nlinarith
  rw [pyInt_of_nonneg hx]
  constructor
  · exact Int.floor_nonneg.mpr hx
  · have h2 : (255:ℚ) * c ≤ 255 := by nlinarith
    have h3 : (⌊(255:ℚ)⌋ : ℤ) = 255 := by norm_num
    calc ⌊(255:ℚ) * c⌋ ≤ ⌊(255:ℚ)⌋ := Int.floor_le_floor h2
    _ = 255 := h3

lemma gamma_of_channel {c : ℚ} (h0 : 0 ≤ c) (h1 : c ≤ 1) :
    ∃ g, pyIndex GAMMA8 (pyInt (255 * c)) = some g ∧ g ≤ 255 :=
  pyIndex_GAMMA8_some (pyInt_scale_unit h0 h1).1 (pyInt_scale_unit h0 h1).2

lemma hsvChannels_unit (h s v : ℚ) (hs0 : 0 ≤ s) (hs1 : s ≤ 1)
    (hv0 : 0 ≤ v) (hv1 : v ≤ 1) :
    (0 ≤ (hsvChannels h s v).1 ∧ (hsvChannels h s v).1 ≤ 1) ∧
    (0 ≤ (hsvChannels h s v).2.1 ∧ (hsvChannels h s v).2.1 ≤ 1) ∧
    (0 ≤ (hsvChannels h s v).2.2 ∧ (hsvChannels h s v).2.2 ≤ 1) := by
  by_cases hs : s = 0
  · simp only [hsvChannels, if_pos hs]
    exact ⟨⟨hv0, hv1⟩, ⟨hv0, hv1⟩, ⟨hv0, hv1⟩⟩
  · simp only [hsvChannels, if_neg hs]
    have hfr0 : 0 ≤ h / 60 - ((⌊h / 60⌋ : ℤ) : ℚ) :=
      sub_nonneg.mpr (Int.floor_le _)
    have hfr1 : h / 60 - ((⌊h / 60⌋ : ℤ) : ℚ) ≤ 1 := by
      have := Int.sub_one_lt_floor (h / 60)
      linarith
    have hp0 : 0 ≤ v * (1 - s) := mul_nonneg hv0 (by linarith)
    have hp1 : v * (1 - s) ≤ 1 := by nlinarith
    have hq0 : 0 ≤ v * (1 - s * (h / 60 - ((⌊h / 60⌋ : ℤ) : ℚ))) := by
      apply mul_nonneg hv0
      nlinarith
    have hq1 : v * (1 - s * (h / 60 - ((⌊h / 60⌋ : ℤ) : ℚ))) ≤ 1 := by
      nlinarith [mul_nonneg hs0 hfr0]
    have ht0 : 0 ≤ v * (1 - s * (1 - (h / 60 - ((⌊h / 60⌋ : ℤ) : ℚ)))) := by
      apply mul_nonneg hv0
      nlinarith
    have ht1 : v * (1 - s * (1 - (h / 60 - ((⌊h / 60⌋ : ℤ) : ℚ)))) ≤ 1 := by
      nlinarith [mul_nonneg hs0 (by linarith : (0:ℚ) ≤ 1 - (h / 60 - ((⌊h / 60⌋ : ℤ) : ℚ)))]
    split_ifs <;> exact ⟨⟨by assumption, by assumption⟩,
      ⟨by assumption, by assumption⟩, ⟨by assumption, by assumption⟩⟩

/-- Claim C10 (implicit totality/safety): for every hue whatsoever
(including 360 and out-of-range hues) and saturation/value in [0,1],
HSV_to_RGB evaluates without error: each intermediate linear channel stays
in [0,1], every gamma lookup is in range (no IndexError), and the returned
components are bytes at most 255. -/
theorem HSV_to_RGB_total (h s v : ℚ) (hs0 : 0 ≤ s) (hs1 : s ≤ 1)
    (hv0 : 0 ≤ v) (hv1 : v ≤ 1) :
    (0 ≤ (hsvChannels h s v).1 ∧ (hsvChannels h s v).1 ≤ 1) ∧
    (0 ≤ (hsvChannels h s v).2.1 ∧ (hsvChannels h s v).2.1 ≤ 1) ∧
    (0 ≤ (hsvChannels h s v).2.2 ∧ (hsvChannels h s v).2.2 ≤ 1) ∧
    ∃ r g b, HSV_to_RGB h s v = some (r, g, b) ∧
      r ≤ 255 ∧ g ≤ 255 ∧ b ≤ 255 := by
  obtain ⟨⟨h10, h11⟩, ⟨h20, h21⟩, ⟨h30, h31⟩⟩ :=
    hsvChannels_unit h s v hs0 hs1 hv0 hv1
  obtain ⟨r, hr, hr255⟩ := gamma_of_channel h10 h11
  obtain ⟨g, hg, hg255⟩ := gamma_of_channel h20 h21
  obtain ⟨b, hb, hb255⟩ := gamma_of_channel h30 h31
  refine ⟨⟨h10, h11⟩, ⟨h20, h21⟩, ⟨h30, h31⟩, r, g, b, ?_, hr255, hg255, hb255⟩
  simp only [HSV_to_RGB]
  rw [hr, hg, hb]

/-- Witness for C10 at the boundary hue 360 (outside the spec's stated
[0,360) domain) with full saturation and value. -/
theorem HSV_to_RGB_total_witness :
    (0 ≤ (hsvChannels 360 1 1).1 ∧ (hsvChannels 360 1 1).1 ≤ 1) ∧
    (0 ≤ (hsvChannels 360 1 1).2.1 ∧ (hsvChannels 360 1 1).2.1 ≤ 1) ∧
    (0 ≤ (hsvChannels 360 1 1).2.2 ∧ (hsvChannels 360 1 1).2.2 ≤ 1) ∧
    ∃ r g b, HSV_to_RGB 360 1 1 = some (r, g, b) ∧
      r ≤ 255 ∧ g ≤ 255 ∧ b ≤ 255 :=
  HSV_to_RGB_total 360 1 1 (by norm_num) (by norm_num) (by norm_num) (by norm_num)

set_option maxRecDepth 1000000 in
/-- Counterexample to C4 as stated: at v = 199/200 (and hue 0), the code
truncates 255·v = 253.725 to index 253 and returns gamma(253) = 249 on
each channel, while rounding toward the nearest index would give
gamma(254) = 252. -/
theorem hsv_grayscale_round_counterexample :
    HSV_to_RGB 0 0 (199/200) = some (249, 249, 249) ∧
    pyIndex GAMMA8 (round ((255:ℚ) * (199/200))) = some 252 ∧
    ((249:ℕ), (249:ℕ), (249:ℕ)) ≠ ((252:ℕ), (252:ℕ), (252:ℕ)) := by
  refine ⟨?_, ?_, by decide⟩
  · with_unfolding_all decide
  · with_unfolding_all decide

/-- Claim C4 as amended: for saturation 0 and any hue, HSV_to_RGB returns
the grayscale triple (g,g,g) where g is the gamma table entry at the
TRUNCATED index int(255·v) (Python `int`, toward zero), not the
round-to-nearest index. -/
theorem hsv_grayscale (h v : ℚ) (hv0 : 0 ≤ v) (hv1 : v ≤ 1) :
    ∃ g, pyIndex GAMMA8 (pyInt (255 * v)) = some g ∧
      HSV_to_RGB h 0 v = some (g, g, g) := by
  obtain ⟨g, hg, _⟩ := gamma_of_channel hv0 hv1
  refine ⟨g, hg, ?_⟩
  have hch : hsvChannels h 0 v = (v, v, v) := by simp [hsvChannels]
  simp only [HSV_to_RGB, hch]
  rw [hg]

/-- Witness for C4 (amended) at hue 0, v = 1. -/
theorem hsv_grayscale_witness :
    ∃ g, pyIndex GAMMA8 (pyInt (255 * 1)) = some g ∧
      HSV_to_RGB 0 0 1 = some (g, g, g) :=
  hsv_grayscale 0 1 (by norm_num) (by norm_num)

set_option maxRecDepth 1000000 in
/-- Claim C5: at the six sector-boundary hues with s = 1, v = 1,
HSV_to_RGB returns the gamma-corrected primary/secondary colors
(gamma(255) = 255 and gamma(0) = 0, recorded in the first two conjuncts). -/
theorem hsv_sector_boundaries :
    pyIndex GAMMA8 255 = some 255 ∧ pyIndex GAMMA8 0 = some 0 ∧
    HSV_to_RGB 0 1 1 = some (255, 0, 0) ∧
    HSV_to_RGB 60 1 1 = some (255, 255, 0) ∧
    HSV_to_RGB 120 1 1 = some (0, 255, 0) ∧
    HSV_to_RGB 180 1 1 = some (0, 255, 255) ∧
    HSV_to_RGB 240 1 1 = some (0, 0, 255) ∧
    HSV_to_RGB 300 1 1 = some (255, 0, 255) := by
  refine ⟨?_, ?_, ?_, ?_, ?_, ?_, ?_, ?_⟩ <;> with_unfolding_all decide

/-- Claim C6: the configured thresholds calibrate to codes 48 and 13, both
within the 7-bit limit, so calibration succeeds. -/
theorem calibrate_nominal :
    tap_threshold TAP_THRESHOLD_G = 48 ∧ time_limit TAP_TIME_LIMIT_S = 13 ∧
    tap_threshold TAP_THRESHOLD_G ≤ 127 ∧ time_limit TAP_TIME_LIMIT_S ≤ 127 ∧
    calibrate TAP_THRESHOLD_G TAP_TIME_LIMIT_S = .ok (48, 13) := by
  refine ⟨?_, ?_, ?_, ?_, ?_⟩
  · with_unfolding_all decide
  · with_unfolding_all decide
  · with_unfolding_all decide
  · with_unfolding_all decide
  · with_unfolding_all rfl

/-- Counterexample to C7 as stated: with threshold 5 g and window 3 s, the
derived time-limit code is 150 > 127, yet calibration fails with
ThresholdOutOfRange (the threshold check runs first), not
TimeLimitOutOfRange — refuting that direction of the biconditional. -/
theorem calibrate_timelimit_counterexample :
    127 < time_limit 3 ∧
    calibrate 5 3 = .error .ThresholdOutOfRange ∧
    calibrate 5 3 ≠ .error .TimeLimitOutOfRange := by
  have h : calibrate 5 3 = .error .ThresholdOutOfRange := by
    with_unfolding_all rfl
  refine ⟨by with_unfolding_all decide, h, ?_⟩
  rw [h]
  intro hc
  injection hc with hc2
  exact CalibrationError.noConfusion hc2

/-- Claim C7 as amended: calibration fails with ThresholdOutOfRange iff the
threshold code exceeds 127; it fails with TimeLimitOutOfRange iff the
threshold code is within range AND the time-limit code exceeds 127 (the
threshold check preempts); and some fatal error (modelling the
non-returning `error_sos` fault state) occurs iff either code exceeds
127. -/
theorem calibrate_error_conditions (g s : ℚ) :
    (calibrate g s = .error .ThresholdOutOfRange ↔ 127 < tap_threshold g) ∧
    (calibrate g s = .error .TimeLimitOutOfRange ↔
      (tap_threshold g ≤ 127 ∧ 127 < time_limit s)) ∧
    ((∃ e, calibrate g s = .error e) ↔
      (127 < tap_threshold g ∨ 127 < time_limit s)) := by
  simp only [calibrate]
  split_ifs with h1 h2 <;> simp_all [not_lt]

/-- Counterexample to C8 as stated: a negative threshold (-1 g) passes the
only check (code > 127) and calibration succeeds, yet the resulting
threshold code -32 is below the 7-bit range. -/
theorem calibrate_codes_counterexample :
    calibrate (-1) TAP_TIME_LIMIT_S = .ok (-32, 13) ∧ ((-32:ℤ) < 0) := by
  refine ⟨?_, by decide⟩
  with_unfolding_all rfl

/-- Claim C8 as amended: for nonnegative inputs (threshold in gravities,
window in seconds), whenever calibration succeeds both derived codes lie in
the 7-bit range [0,127]. -/
theorem calibrate_codes_in_range (g s : ℚ) (hg : 0 ≤ g) (hs : 0 ≤ s)
    (tc lc : ℤ) (hok : calibrate g s = .ok (tc, lc)) :
    0 ≤ tc ∧ tc ≤ 127 ∧ 0 ≤ lc ∧ lc ≤ 127 := by
  simp only [calibrate] at hok
  by_cases h1 : tap_threshold g > 127
  · rw [if_pos h1] at hok
    exact absurd hok (by simp)
  · rw [if_neg h1] at hok
    by_cases h2 : time_limit s > 127
    · rw [if_pos h2] at hok
      exact absurd hok (by simp)
    · rw [if_neg h2] at hok
      obtain ⟨h3, h4⟩ : tap_threshold g = tc ∧ time_limit s = lc := by
        simpa using hok
      subst h3
      subst h4
      have h5 : 0 ≤ tap_threshold g :=
        Int.ceil_nonneg (div_nonneg hg (by norm_num))
      have h6 : 0 ≤ time_limit s :=
        Int.ceil_nonneg (div_nonneg hs (by norm_num))
      exact ⟨h5, not_lt.mp h1, h6, not_lt.mp h2⟩

/-- Witness for C8 (amended) at the configured inputs. -/
theorem calibrate_codes_in_range_witness :
    calibrate (3/2) (1/4) = .ok (48, 13) ∧
    (0 ≤ (48:ℤ) ∧ (48:ℤ) ≤ 127 ∧ 0 ≤ (13:ℤ) ∧ (13:ℤ) ≤ 127) :=
  ⟨by with_unfolding_all rfl,
    calibrate_codes_in_range (3/2) (1/4) (by norm_num) (by norm_num) 48 13
      (by with_unfolding_all rfl)⟩

/-- Counterexample to C9 as stated: at the attainable sine output x = 1,
the hue interpolation yields exactly 360, which is not strictly less
than 360. -/
theorem lerp_hue_counterexample :
    lerp 1 (-1) 1 0 360 = 360 ∧ ¬ lerp 1 (-1) 1 0 360 < 360 := by
  constructor <;> norm_num [lerp]

/-- Claim C9 as amended: for every sine output x in [-1,1], the hue
interpolation lerp(x, -1, 1, 0, 360) lies in the CLOSED interval [0,360]
(360 is attained at x = 1) — which matches the hue domain documented on
`HSV_to_RGB` in the code (0.0 to 360.0). -/
theorem lerp_hue_in_closed_range (x : ℚ) (h1 : -1 ≤ x) (h2 : x ≤ 1) :
    0 ≤ lerp x (-1) 1 0 360 ∧ lerp x (-1) 1 0 360 ≤ 360 := by
  unfold lerp
  constructor <;> nlinarith

/-- Witness for C9 (amended) at x = 0 (hue 180). -/
theorem lerp_hue_in_closed_range_witness :
    0 ≤ lerp 0 (-1) 1 0 360 ∧ lerp 0 (-1) 1 0 360 ≤ 360 :=
  lerp_hue_in_closed_range 0 (by norm_num) (by norm_num)

end CircuitWalker
